import Mathlib

set_option maxHeartbeats 2000000
set_option maxRecDepth 100000

/-!
Shallow embedding of the download-task queue of the spyt-music-server
repository: the Task data model (`app/db/schemas.py`, `create_task`'s document
shape), the repository operations on the `download_tasks` collection
(`app/db/repositories/download_tasks.py` on top of
`app/db/base_repository.py`), the worker's atomic claim
(`app/downloader/download_worker.py`), the cancel endpoint
(`app/api/v1/endpoints/downloads.py`) and the Reaper's zombie pass
(`app/workers/scheduler.py`).

A Mongo collection is modelled as a `List Task` in natural (insertion) order.
`find_one` / `find_one_and_update` / `delete_one` act on the first matching
document; a find with sort `[(priority, 1), (created_at, 1)]` and `limit=1`
is modelled by selecting the first occurrence of the lexicographically least
`(priority, created_at)` pending document.  Timestamps are integers (seconds);
the several `datetime.now()` calls inside one operation are collapsed to a
single `now` parameter.
-/

namespace Spyt

/-- Status constant from `app/db/schemas.py`. -/
def STATUS_PENDING : String := "pending"

/-- Status constant from `app/db/schemas.py`. -/
def STATUS_IN_PROGRESS : String := "in_progress"

/-- Status constant from `app/db/schemas.py`. -/
def STATUS_SUCCESS : String := "success"

/-- Status constant from `app/db/schemas.py`. -/
def STATUS_FAILED : String := "failed"

/-- Status literal used by the cancel endpoint (`downloads.py`); there is no
schema constant for it. -/
def STATUS_CANCELED : String := "canceled"

/-- Progress counters sub-document (`progress` field of a task). -/
structure Progress where
  total : Int
  completed : Int
  failed : Int
deriving DecidableEq

/-- A document of the `download_tasks` collection, with the exact fields the
code writes (`DownloadTaskRepository.create_task`). -/
structure Task where
  task_id : String
  task_type : String
  entity_id : String
  entity_name : String
  priority : Int
  status : String
  progress : Progress
  options : List (String × String)
  retries : Nat
  max_retries : Nat
  created_at : Int
  updated_at : Int
  scheduled_at : Int
  started_at : Option Int
  completed_at : Option Int
  worker_id : Option String
  error : Option String
deriving DecidableEq

/-- `BaseRepository.find_one`: first document matching the query, in natural
order. -/
def find_one (q : Task → Bool) (store : List Task) : Option Task :=
  store.find? q

/-- `BaseRepository.update_one` (a `find_one_and_update` with
`ReturnDocument.AFTER`, `upsert=False`): transform the first matching
document, returning the updated document and the updated collection.  The
caller's `$set` payload (including the `updated_at` stamp the base repository
adds) is the function `f`. -/
def update_one (q : Task → Bool) (f : Task → Task) : List Task → Option Task × List Task
  | [] => (none, [])
  | u :: us =>
    if q u then (some (f u), f u :: us)
    else
      let r := update_one q f us
      (r.1, u :: r.2)

/-- `BaseRepository.delete_one`: remove the first matching document. -/
def delete_one (q : Task → Bool) : List Task → List Task
  | [] => []
  | u :: us => if q u then us else u :: delete_one q us

/-- The deterministic task id `f"{task_type}_{entity_id}"` of
`DownloadTaskRepository.create_task`. -/
def derived_task_id (task_type entity_id : String) : String :=
  task_type ++ "_" ++ entity_id

/-- The fresh task document built by `DownloadTaskRepository.create_task`. -/
def new_task (now : Int) (task_id task_type entity_id entity_name : String)
    (priority : Int) (options : List (String × String)) : Task :=
  { task_id := task_id, task_type := task_type, entity_id := entity_id,
    entity_name := entity_name, priority := priority, status := STATUS_PENDING,
    progress := { total := 1, completed := 0, failed := 0 },
    options := options, retries := 0, max_retries := 3,
    created_at := now, updated_at := now, scheduled_at := now,
    started_at := none, completed_at := none, worker_id := none, error := none }

/-- The `$set` payload `{status: pending, retries: 0}` (plus the base
repository's `updated_at`) that `create_task` applies to an existing `failed`
task. -/
def create_reset_stamp (now : Int) (u : Task) : Task :=
  { u with status := STATUS_PENDING, retries := 0, updated_at := now }

/-- `DownloadTaskRepository.create_task`: derive the id; if a document with
that id exists and `force` is unset, return the id unchanged when its status
is `success`/`in_progress`, reset it to `pending` with `retries=0` when
`failed`, and return it untouched when `pending`; any other existing status
falls through to a plain insert.  With `force`, the old document is deleted
and a fresh one inserted. -/
def create_task (store : List Task) (now : Int) (task_type entity_id entity_name : String)
    (priority : Int) (options : List (String × String)) (force : Bool) :
    String × List Task :=
  let task_id := derived_task_id task_type entity_id
  match find_one (fun u => u.task_id == task_id) store with
  | some ex =>
    if !force then
      if ex.status == STATUS_SUCCESS || ex.status == STATUS_IN_PROGRESS then
        (task_id, store)
      else if ex.status == STATUS_FAILED || ex.status == STATUS_PENDING then
        if ex.status == STATUS_FAILED then
          (task_id,
            (update_one (fun u => u.task_id == task_id) (create_reset_stamp now) store).2)
        else (task_id, store)
      else
        (task_id, store ++ [new_task now task_id task_type entity_id entity_name priority options])
    else
      (task_id,
        delete_one (fun u => u.task_id == task_id) store
          ++ [new_task now task_id task_type entity_id entity_name priority options])
  | none =>
    (task_id, store ++ [new_task now task_id task_type entity_id entity_name priority options])

/-- Between two tasks, the one Mongo's sort `[(priority, 1), (created_at, 1)]`
places earlier; on a full tie the accumulator (the earlier document in natural
order) is kept, matching a stable sort. -/
def pickBetter (a b : Task) : Task :=
  if b.priority < a.priority ∨ (b.priority = a.priority ∧ b.created_at < a.created_at) then b
  else a

/-- The single document returned by a find on `{status: pending}` with sort
`[(priority, 1), (created_at, 1)]` and `limit=1`: the first occurrence of the
least `(priority, created_at)` pending task. -/
def selectPending (store : List Task) : Option Task :=
  match store.filter (fun u => u.status == STATUS_PENDING) with
  | [] => none
  | t :: ts => some (ts.foldl pickBetter t)

/-- The `$set` payload of the worker's claim: `status=in_progress`,
`worker_id`, `started_at` (`DownloadWorker._get_next_task` uses the raw
pymongo call, so no `updated_at` stamp is added). -/
def claim_stamp (now : Int) (worker_id : String) (u : Task) : Task :=
  { u with
    status := STATUS_IN_PROGRESS
    worker_id := some worker_id
    started_at := some now }

/-- Replace the first occurrence of `t` by `c`. -/
def replaceFirst (t c : Task) : List Task → List Task
  | [] => []
  | u :: us => if u = t then c :: us else u :: replaceFirst t c us

/-- `DownloadWorker._get_next_task`: a single atomic `find_one_and_update` on
`{status: pending}` sorted by `(priority, created_at)`, stamping the claim and
returning the updated document. -/
def get_next_task (store : List Task) (now : Int) (worker_id : String) :
    Option Task × List Task :=
  match selectPending store with
  | none => (none, store)
  | some t =>
    let c := claim_stamp now worker_id t
    (some c, replaceFirst t c store)

/-- First phase of `DownloadTaskRepository.get_next_pending_task`: the `find`
on `{status: pending}` with sort and `limit=1`, keeping only the found
document's `task_id`. -/
def claim_find_phase (store : List Task) : Option String :=
  (selectPending store).map (fun t => t.task_id)

/-- Second phase of `DownloadTaskRepository.get_next_pending_task`: the
separate `update_one` keyed on `{task_id}` alone (no status condition),
stamping `status=in_progress`, `started_at`, `worker_id` (plus the base
repository's `updated_at`). -/
def claim_update_phase (store : List Task) (now : Int) (worker_id task_id : String) :
    Option Task × List Task :=
  update_one (fun u => u.task_id == task_id)
    (fun u => { u with
                status := STATUS_IN_PROGRESS
                started_at := some now
                worker_id := some worker_id
                updated_at := now }) store

/-- `DownloadTaskRepository.get_next_pending_task`, run without interleaving:
find phase followed by update phase. -/
def get_next_pending_task (store : List Task) (now : Int) (worker_id : String) :
    Option Task × List Task :=
  match claim_find_phase store with
  | none => (none, store)
  | some task_id => claim_update_phase store now worker_id task_id

/-- Two concurrent `get_next_pending_task` calls under the interleaving
`find(w1); find(w2); update(w1); update(w2)`: both find phases read the same
store, then the update phases run in turn.  Returns what each caller receives
and the final store. -/
def race_two_claims (store : List Task) (n1 n2 : Int) (w1 w2 : String) :
    Option Task × Option Task × List Task :=
  match claim_find_phase store, claim_find_phase store with
  | none, none => (none, none, store)
  | none, some i2 =>
    let r2 := claim_update_phase store n2 w2 i2
    (none, r2.1, r2.2)
  | some i1, none =>
    let r1 := claim_update_phase store n1 w1 i1
    (r1.1, none, r1.2)
  | some i1, some i2 =>
    let r1 := claim_update_phase store n1 w1 i1
    let r2 := claim_update_phase r1.2 n2 w2 i2
    (r1.1, r2.1, r2.2)

/-- `DownloadTaskRepository.update_task_progress`: overwrite the progress
sub-document of the task. -/
def update_task_progress (store : List Task) (now : Int) (task_id : String)
    (completed failed total : Int) : Option Task × List Task :=
  update_one (fun u => u.task_id == task_id)
    (fun u => { u with
                progress := { total := total, completed := completed, failed := failed }
                updated_at := now }) store

/-- Python truthiness of the optional `error` string (`if error:`):
false for `None` and for the empty string. -/
def str_truthy (e : Option String) : Bool :=
  match e with
  | none => false
  | some s => !(s == "")

/-- `DownloadTaskRepository.complete_task`: set terminal status and
`completed_at`; the `error` field is written only when the argument is
truthy.  `worker_id` is not touched. -/
def complete_task (store : List Task) (now : Int) (task_id : String) (success : Bool)
    (error : Option String) : Option Task × List Task :=
  update_one (fun u => u.task_id == task_id)
    (fun u =>
      let u1 := { u with
                  status := if success then STATUS_SUCCESS else STATUS_FAILED
                  completed_at := some now
                  updated_at := now }
      if str_truthy error then { u1 with error := error } else u1)
    store

/-- The `$set` payload of `retry_task`: back to `pending` with the
incremented retry count `r`, `scheduled_at` stamped, lease fields cleared
(plus the base repository's `updated_at`). -/
def retry_stamp (now : Int) (r : Nat) (u : Task) : Task :=
  { u with
    status := STATUS_PENDING
    retries := r
    scheduled_at := now
    started_at := none
    worker_id := none
    updated_at := now }

/-- `DownloadTaskRepository.retry_task`: refuse (no write at all) when the
task is missing or `retries >= max_retries`; otherwise reset to `pending`,
increment `retries`, clear `worker_id`/`started_at`, stamp `scheduled_at`. -/
def retry_task (store : List Task) (now : Int) (task_id : String) :
    Option Task × List Task :=
  match find_one (fun u => u.task_id == task_id) store with
  | none => (none, store)
  | some t =>
    if t.retries ≥ t.max_retries then (none, store)
    else
      update_one (fun u => u.task_id == task_id) (retry_stamp now (t.retries + 1)) store

/-- The lookup `result.get('matched_count', 0)` inside
`DownloadTaskRepository.assign_task`: `result` is the updated task document
returned by `find_one_and_update`, which carries only the task fields and
never a `matched_count` key, so the lookup always falls back to the default
0. -/
def Task.getMatchedCount (_ : Task) : Nat := 0

/-- `DownloadTaskRepository.assign_task`: conditional update keyed on
`{task_id, status: pending}` stamping the claim; then the matched-count check
on the returned document decides the boolean result. -/
def assign_task (store : List Task) (now : Int) (task_id worker_id : String) :
    Bool × List Task :=
  let r := update_one (fun u => u.task_id == task_id && u.status == STATUS_PENDING)
    (fun u => { u with
                status := STATUS_IN_PROGRESS
                worker_id := some worker_id
                started_at := some now
                updated_at := now }) store
  match r.1 with
  | none => (false, r.2)
  | some doc => if doc.getMatchedCount == 0 then (false, r.2) else (true, r.2)

/-- The cancel endpoint (`downloads.py`, `cancel_download_task`): look the
task up; missing or non-`pending` tasks are rejected with no write; a
`pending` task is set to `canceled`. -/
def cancel_download_task (store : List Task) (now : Int) (task_id : String) :
    List Task :=
  match find_one (fun u => u.task_id == task_id) store with
  | none => store
  | some t =>
    if t.status == STATUS_PENDING then
      (update_one (fun u => u.task_id == task_id)
        (fun u => { u with status := STATUS_CANCELED, updated_at := now }) store).2
    else store

/-- The error message `clean_zombie_tasks` writes (the spec's
"execution timed out" is its English rendering). -/
def TIMEOUT_ERROR : String := "任务执行超时"

/-- The `$set` payload of the zombie pass: `failed`, the timeout error,
`completed_at` (plus the base repository's `updated_at`); `worker_id` is not
cleared. -/
def zombie_fail (now : Int) (u : Task) : Task :=
  { u with
    status := STATUS_FAILED
    error := some TIMEOUT_ERROR
    completed_at := some now
    updated_at := now }

/-- `TaskScheduler.clean_zombie_tasks`: fetch the `in_progress` tasks via
`BaseRepository.find`, whose default `limit=100` caps the scan at the first
100 documents; mark each scanned task whose `started_at` precedes
`now - 1h` as failed with the timeout error. -/
def clean_zombie_tasks (store : List Task) (now : Int) : List Task :=
  let scanned := (store.filter (fun u => u.status == STATUS_IN_PROGRESS)).take 100
  let threshold := now - 3600
  scanned.foldl
    (fun s t =>
      match t.started_at with
      | some st =>
        if st < threshold then
          (update_one (fun u => u.task_id == t.task_id) (zombie_fail now) s).2
        else s
      | none => s)
    store

/-- Modelled from the spec: `DownloaderService.retry_failed_task`, called by
the retry endpoint (`downloads.py`, `retry_download_task`) but absent from
`src/`.  Per the spec, a retry is "only legal when `failed` and under the
retry budget": any other status, a missing task, or an exhausted budget is
refused with no write; otherwise the repository retry is performed. -/
def retry_failed_task (store : List Task) (now : Int) (task_id : String) :
    Bool × List Task :=
  match find_one (fun u => u.task_id == task_id) store with
  | none => (false, store)
  | some t =>
    if t.status == STATUS_FAILED && t.retries < t.max_retries then
      let r := retry_task store now task_id
      (r.1.isSome, r.2)
    else (false, store)

/-- Store states reachable from the empty collection by the operations the
front end, the workers and the Reaper perform: create, the two claim paths,
progress update, completion, retry, assignment, cancellation and the zombie
pass. -/
inductive Reachable : List Task → Prop where
  | init : Reachable []
  | create (s now task_type entity_id entity_name priority options force) :
      Reachable s →
      Reachable (create_task s now task_type entity_id entity_name priority options force).2
  | claim_worker (s now worker_id) :
      Reachable s → Reachable (get_next_task s now worker_id).2
  | claim_repo (s now worker_id) :
      Reachable s → Reachable (get_next_pending_task s now worker_id).2
  | progress (s now task_id completed failed total) :
      Reachable s → Reachable (update_task_progress s now task_id completed failed total).2
  | complete (s now task_id success error) :
      Reachable s → Reachable (complete_task s now task_id success error).2
  | retry (s now task_id) :
      Reachable s → Reachable (retry_task s now task_id).2
  | assign (s now task_id worker_id) :
      Reachable s → Reachable (assign_task s now task_id worker_id).2
  | cancel (s now task_id) :
      Reachable s → Reachable (cancel_download_task s now task_id)
  | zombies (s now) :
      Reachable s → Reachable (clean_zombie_tasks s now)

/-! Lemmas about the store primitives. -/

theorem mem_update_one {q : Task → Bool} {f : Task → Task} {v : Task} :
    ∀ {s : List Task}, v ∈ (update_one q f s).2 →
      v ∈ s ∨ ∃ u, u ∈ s ∧ q u = true ∧ v = f u := by
  intro s
  induction s with
  | nil => intro h; simp [update_one] at h
  | cons u us ih =>
    intro h
    by_cases hq : q u = true
    · simp only [update_one, hq, if_pos] at h
      rcases List.mem_cons.1 h with he | hm
      · exact Or.inr ⟨u, List.mem_cons_self u us, hq, he⟩
      · exact Or.inl (List.mem_cons_of_mem _ hm)
    · simp only [update_one, hq, if_neg, Bool.false_eq_true, not_false_eq_true] at h
      rcases List.mem_cons.1 h with he | hm
      · exact Or.inl (he ▸ List.mem_cons_self u us)
      · rcases ih hm with h2 | ⟨w, hw, hqw, hv⟩
        · exact Or.inl (List.mem_cons_of_mem _ h2)
        · exact Or.inr ⟨w, List.mem_cons_of_mem _ hw, hqw, hv⟩

theorem update_one_eq_none {q : Task → Bool} {f : Task → Task} :
    ∀ {s : List Task}, s.find? q = none → update_one q f s = (none, s) := by
  intro s
  induction s with
  | nil => intro _; rfl
  | cons u us ih =>
    intro h
    by_cases hq : q u = true
    · rw [List.find?_cons_of_pos _ hq] at h; exact absurd h (by simp)
    · rw [List.find?_cons_of_neg _ (by simpa using hq)] at h
      simp only [update_one, hq, if_neg, Bool.false_eq_true, not_false_eq_true, ih h]

theorem update_one_fst_of_find? {q : Task → Bool} {f : Task → Task} {t : Task} :
    ∀ {s : List Task}, s.find? q = some t → (update_one q f s).1 = some (f t) := by
  intro s
  induction s with
  | nil => intro h; simp at h
  | cons u us ih =>
    intro h
    by_cases hq : q u = true
    · rw [List.find?_cons_of_pos _ hq] at h
      simp only [update_one, hq, if_pos, Option.some.injEq] at *
      exact congrArg f h
    · rw [List.find?_cons_of_neg _ (by simpa using hq)] at h
      simp only [update_one, hq, if_neg, Bool.false_eq_true, not_false_eq_true]
      exact ih h

theorem find?_update_one {q : Task → Bool} {f : Task → Task} {t : Task} :
    ∀ {s : List Task}, s.find? q = some t → q (f t) = true →
      (update_one q f s).2.find? q = some (f t) := by
  intro s
  induction s with
  | nil => intro h _; simp at h
  | cons u us ih =>
    intro h hf
    by_cases hq : q u = true
    · rw [List.find?_cons_of_pos _ hq] at h
      cases h
      simp only [update_one, hq, if_pos]
      exact List.find?_cons_of_pos _ hf
    · rw [List.find?_cons_of_neg _ (by simpa using hq)] at h
      simp only [update_one, hq, if_neg, Bool.false_eq_true, not_false_eq_true]
      rw [List.find?_cons_of_neg _ (by simpa using hq)]
      exact ih h hf

theorem find?_append_of_none {p : Task → Bool} {l1 l2 : List Task}
    (h : l1.find? p = none) : (l1 ++ l2).find? p = l2.find? p := by
  induction l1 with
  | nil => simp
  | cons u us ih =>
    by_cases hq : p u = true
    · rw [List.find?_cons_of_pos _ hq] at h; exact absurd h (by simp)
    · rw [List.find?_cons_of_neg _ (by simpa using hq)] at h
      rw [List.cons_append, List.find?_cons_of_neg _ (by simpa using hq)]
      exact ih h

theorem mem_delete_one {q : Task → Bool} {v : Task} :
    ∀ {s : List Task}, v ∈ delete_one q s → v ∈ s := by
  intro s
  induction s with
  | nil => intro h; simp [delete_one] at h
  | cons u us ih =>
    intro h
    by_cases hq : q u = true
    · simp only [delete_one, hq, if_pos] at h
      exact List.mem_cons_of_mem _ h
    · simp only [delete_one, hq, if_neg, Bool.false_eq_true, not_false_eq_true] at h
      rcases List.mem_cons.1 h with he | hm
      · exact he ▸ List.mem_cons_self u us
      · exact List.mem_cons_of_mem _ (ih hm)

theorem mem_replaceFirst {t c v : Task} :
    ∀ {s : List Task}, v ∈ replaceFirst t c s → v = c ∨ v ∈ s := by
  intro s
  induction s with
  | nil => intro h; simp [replaceFirst] at h
  | cons u us ih =>
    intro h
    by_cases he : u = t
    · simp only [replaceFirst, he, if_pos] at h
      rcases List.mem_cons.1 h with h1 | h2
      · exact Or.inl h1
      · exact Or.inr (List.mem_cons_of_mem _ h2)
    · simp only [replaceFirst, he, if_neg, not_false_eq_true] at h
      rcases List.mem_cons.1 h with h1 | h2
      · exact Or.inr (h1 ▸ List.mem_cons_self u us)
      · rcases ih h2 with h3 | h3
        · exact Or.inl h3
        · exact Or.inr (List.mem_cons_of_mem _ h3)

/-! Lemmas about the sorted pending selection. -/

/-- The ordering `claim_next` serves tasks in: priority ascending, then
`created_at` ascending. -/
def lexLe (a b : Task) : Prop :=
  a.priority < b.priority ∨ (a.priority = b.priority ∧ a.created_at ≤ b.created_at)

theorem lexLe_refl (a : Task) : lexLe a a := Or.inr ⟨rfl, le_refl _⟩

theorem lexLe_trans {a b c : Task} (h1 : lexLe a b) (h2 : lexLe b c) : lexLe a c := by
  unfold lexLe at *
  omega

theorem pickBetter_eq_or (a b : Task) : pickBetter a b = a ∨ pickBetter a b = b := by
  unfold pickBetter
  split
  · exact Or.inr rfl
  · exact Or.inl rfl

theorem pickBetter_le_left (a b : Task) : lexLe (pickBetter a b) a := by
  unfold pickBetter lexLe
  split <;> omega

theorem pickBetter_le_right (a b : Task) : lexLe (pickBetter a b) b := by
  unfold pickBetter lexLe
  split <;> omega

theorem foldl_pickBetter_mem : ∀ (ts : List Task) (t : Task),
    ts.foldl pickBetter t ∈ t :: ts := by
  intro ts
  induction ts with
  | nil => intro t; simp
  | cons u us ih =>
    intro t
    have h := ih (pickBetter t u)
    simp only [List.foldl_cons]
    rcases List.mem_cons.1 h with he | hm
    · rcases pickBetter_eq_or t u with h1 | h1 <;> rw [he, h1] <;> simp
    · simp [List.mem_cons, Or.inr (Or.inr hm)]

theorem foldl_pickBetter_le : ∀ (ts : List Task) (t u : Task),
    u ∈ t :: ts → lexLe (ts.foldl pickBetter t) u := by
  intro ts
  induction ts with
  | nil =>
    intro t u h
    simp at h
    exact h ▸ lexLe_refl t
  | cons v vs ih =>
    intro t u h
    simp only [List.foldl_cons]
    rcases List.mem_cons.1 h with rfl | h2
    · exact lexLe_trans (ih (pickBetter u v) _ (List.mem_cons_self _ _)) (pickBetter_le_left u v)
    · rcases List.mem_cons.1 h2 with rfl | h3
      · exact lexLe_trans (ih (pickBetter t u) _ (List.mem_cons_self _ _)) (pickBetter_le_right t u)
      · exact ih (pickBetter t v) u (List.mem_cons_of_mem _ h3)

theorem selectPending_mem {s : List Task} {t : Task} (h : selectPending s = some t) :
    t ∈ s ∧ t.status = STATUS_PENDING := by
  unfold selectPending at h
  rcases hf : s.filter (fun u => u.status == STATUS_PENDING) with _ | ⟨a, as⟩ <;> rw [hf] at h
  · simp at h
  · simp only [Option.some.injEq] at h
    have hm := foldl_pickBetter_mem as a
    rw [h] at hm
    have hmem : t ∈ s.filter (fun u => u.status == STATUS_PENDING) := by rw [hf]; exact hm
    have h2 := List.mem_filter.1 hmem
    exact ⟨h2.1, by simpa using h2.2⟩

theorem selectPending_le {s : List Task} {t : Task} (h : selectPending s = some t) :
    ∀ u ∈ s, u.status = STATUS_PENDING → lexLe t u := by
  intro u hu hs
  unfold selectPending at h
  rcases hf : s.filter (fun u => u.status == STATUS_PENDING) with _ | ⟨a, as⟩ <;> rw [hf] at h
  · simp at h
  · simp only [Option.some.injEq] at h
    have hm : u ∈ a :: as := by
      rw [← hf]
      exact List.mem_filter.2 ⟨hu, by simp [hs]⟩
    exact h ▸ foldl_pickBetter_le as a u hm

theorem foldl_preserve {β : Type} (P : List Task → Prop) (step : List Task → β → List Task)
    (h : ∀ s x, P s → P (step s x)) :
    ∀ (l : List β) (s : List Task), P s → P (List.foldl step s l) := by
  intro l
  induction l with
  | nil => intro s hs; exact hs
  | cons x xs ih => intro s hs; exact ih (step s x) (h s x hs)

/-! The `worker_id` / `in_progress` invariant (claim C2). -/

/-- The direction of the spec invariant that the code maintains: an
`in_progress` task always carries a lease owner. -/
def WorkerInv (s : List Task) : Prop :=
  ∀ t ∈ s, t.status = STATUS_IN_PROGRESS → t.worker_id ≠ none

/-- The full biconditional the spec states: `worker_id` set iff
`in_progress`. -/
def WorkerIffInv (s : List Task) : Prop :=
  ∀ t ∈ s, (t.worker_id ≠ none ↔ t.status = STATUS_IN_PROGRESS)

theorem workerInv_update_one {q : Task → Bool} {f : Task → Task} {s : List Task}
    (hs : WorkerInv s)
    (hf : ∀ u, u ∈ s → q u = true → (f u).status = STATUS_IN_PROGRESS → (f u).worker_id ≠ none) :
    WorkerInv (update_one q f s).2 := by
  intro t ht hstat
  rcases mem_update_one ht with h | ⟨u, hu, hq, rfl⟩
  · exact hs t h hstat
  · exact hf u hu hq hstat

theorem workerInv_append_new {s : List Task} (hs : WorkerInv s) (nt : Task)
    (hnt : nt.status ≠ STATUS_IN_PROGRESS) : WorkerInv (s ++ [nt]) := by
  intro t ht hstat
  rcases List.mem_append.1 ht with h | h
  · exact hs t h hstat
  · simp at h
    exact absurd (h ▸ hstat) hnt

theorem workerInv_delete_one {q : Task → Bool} {s : List Task} (hs : WorkerInv s) :
    WorkerInv (delete_one q s) :=
  fun t ht hstat => hs t (mem_delete_one ht) hstat

theorem workerInv_create {s : List Task} (hs : WorkerInv s)
    (now : Int) (task_type entity_id entity_name : String) (priority : Int)
    (options : List (String × String)) (force : Bool) :
    WorkerInv (create_task s now task_type entity_id entity_name priority options force).2 := by
  simp only [create_task]
  split
  · split
    · split
      · exact hs
      · split
        · split
          · exact workerInv_update_one hs (fun u _ _ h =>
              absurd h (by simp [create_reset_stamp, STATUS_PENDING, STATUS_IN_PROGRESS]))
          · exact hs
        · exact workerInv_append_new hs _
            (by simp [new_task, STATUS_PENDING, STATUS_IN_PROGRESS])
    · exact workerInv_append_new (workerInv_delete_one hs) _
        (by simp [new_task, STATUS_PENDING, STATUS_IN_PROGRESS])
  · exact workerInv_append_new hs _
      (by simp [new_task, STATUS_PENDING, STATUS_IN_PROGRESS])

theorem workerInv_claim_worker {s : List Task} (hs : WorkerInv s)
    (now : Int) (worker_id : String) :
    WorkerInv (get_next_task s now worker_id).2 := by
  unfold get_next_task
  cases hsel : selectPending s with
  | none => exact hs
  | some t =>
    intro v hv hstat
    rcases mem_replaceFirst hv with rfl | h
    · simp [claim_stamp]
    · exact hs v h hstat

theorem workerInv_claim_repo {s : List Task} (hs : WorkerInv s)
    (now : Int) (worker_id : String) :
    WorkerInv (get_next_pending_task s now worker_id).2 := by
  unfold get_next_pending_task
  cases hsel : claim_find_phase s with
  | none => exact hs
  | some task_id =>
    exact workerInv_update_one hs (fun u _ _ _ => by simp)

theorem workerInv_progress {s : List Task} (hs : WorkerInv s)
    (now : Int) (task_id : String) (completed failed total : Int) :
    WorkerInv (update_task_progress s now task_id completed failed total).2 := by
  unfold update_task_progress
  exact workerInv_update_one hs (fun u hu _ hstat => hs u hu hstat)

theorem workerInv_complete {s : List Task} (hs : WorkerInv s)
    (now : Int) (task_id : String) (success : Bool) (error : Option String) :
    WorkerInv (complete_task s now task_id success error).2 := by
  unfold complete_task
  refine workerInv_update_one hs (fun u _ _ hstat => absurd hstat ?_)
  by_cases he : str_truthy error = true <;>
    cases success <;>
      simp [he, STATUS_SUCCESS, STATUS_FAILED, STATUS_IN_PROGRESS]

theorem workerInv_retry {s : List Task} (hs : WorkerInv s)
    (now : Int) (task_id : String) :
    WorkerInv (retry_task s now task_id).2 := by
  simp only [retry_task]
  split
  · exact hs
  · split
    · exact hs
    · refine workerInv_update_one hs (fun u _ _ hstat => absurd hstat ?_)
      simp [retry_stamp, STATUS_PENDING, STATUS_IN_PROGRESS]

theorem workerInv_assign {s : List Task} (hs : WorkerInv s)
    (now : Int) (task_id worker_id : String) :
    WorkerInv (assign_task s now task_id worker_id).2 := by
  have h2 : WorkerInv (update_one
      (fun u => u.task_id == task_id && u.status == STATUS_PENDING)
      (fun u => { u with
                  status := STATUS_IN_PROGRESS
                  worker_id := some worker_id
                  started_at := some now
                  updated_at := now }) s).2 :=
    workerInv_update_one hs (fun u _ _ _ => by simp)
  simp only [assign_task]
  split
  · exact h2
  · split <;> exact h2

theorem workerInv_cancel {s : List Task} (hs : WorkerInv s)
    (now : Int) (task_id : String) :
    WorkerInv (cancel_download_task s now task_id) := by
  simp only [cancel_download_task]
  split
  · exact hs
  · split
    · refine workerInv_update_one hs (fun u _ _ hstat => absurd hstat ?_)
      simp [STATUS_CANCELED, STATUS_IN_PROGRESS]
    · exact hs

theorem workerInv_zombies {s : List Task} (hs : WorkerInv s) (now : Int) :
    WorkerInv (clean_zombie_tasks s now) := by
  unfold clean_zombie_tasks
  refine foldl_preserve WorkerInv _ (fun s2 t h2 => ?_) _ s hs
  cases t.started_at with
  | none => exact h2
  | some st =>
    simp only
    split
    · refine workerInv_update_one h2 (fun u _ _ hstat => absurd hstat ?_)
      simp [zombie_fail, STATUS_FAILED, STATUS_IN_PROGRESS]
    · exact h2

/-- Claim C2 (amended): in every store state reachable from the empty store
by create, the two claim paths, update_progress, complete, retry, assign,
cancel and the Reaper's zombie pass, a task whose status is `in_progress` has
a non-null `worker_id`.  (The spec's converse direction is false:
`complete_task` and the zombie pass leave `worker_id` set on terminal tasks,
see the counterexample.) -/
theorem worker_id_of_in_progress {s : List Task} (h : Reachable s) : WorkerInv s := by
  induction h with
  | init => intro t ht; simp at ht
  | create s now task_type entity_id entity_name priority options force _ ih =>
    exact workerInv_create ih now task_type entity_id entity_name priority options force
  | claim_worker s now worker_id _ ih => exact workerInv_claim_worker ih now worker_id
  | claim_repo s now worker_id _ ih => exact workerInv_claim_repo ih now worker_id
  | progress s now task_id completed failed total _ ih =>
    exact workerInv_progress ih now task_id completed failed total
  | complete s now task_id success error _ ih =>
    exact workerInv_complete ih now task_id success error
  | retry s now task_id _ ih => exact workerInv_retry ih now task_id
  | assign s now task_id worker_id _ ih => exact workerInv_assign ih now task_id worker_id
  | cancel s now task_id _ ih => exact workerInv_cancel ih now task_id
  | zombies s now _ ih => exact workerInv_zombies ih now

/-! Concrete stores used by witnesses and counterexamples. -/

/-- The pending task `create_task` inserts for entity T1 at time 0. -/
def exPending : Task := new_task 0 "track_T1" "track" "T1" "N" 5 []

/-- A `failed` task for T1 with its retry budget exhausted. -/
def exFailedExhausted : Task := { exPending with status := STATUS_FAILED, retries := 3 }

/-- A `failed` task for T1 with one retry consumed and a stale lease. -/
def exFailedOnce : Task :=
  { exPending with
    status := STATUS_FAILED
    retries := 1
    worker_id := some "w0"
    started_at := some 3 }

/-- A `pending` task for T1 that has already been retried twice. -/
def exPendingRetried : Task := { exPending with retries := 2 }

/-- A `failed` task for T1 retried twice. -/
def exFailedRetried : Task := { exPending with status := STATUS_FAILED, retries := 2 }

/-- Store reached by create, assign: one `in_progress` task leased by w1. -/
def assignedStore : List Task :=
  (assign_task (create_task [] 0 "track" "T1" "N" 5 [] false).2 1 "track_T1" "w1").2

/-- Store reached by create, assign, complete(success): the completed task
still carries `worker_id = w1`. -/
def completedStore : List Task :=
  (complete_task assignedStore 2 "track_T1" true none).2

/-- Pending tasks with priorities 5, 1, 3 created at instants 0, 1, 2. -/
def exA : Task := new_task 0 "track_A" "track" "A" "NA" 5 []

/-- Priority-1 pending task of the priority-ordering example. -/
def exB : Task := new_task 1 "track_B" "track" "B" "NB" 1 []

/-- Priority-3 pending task of the priority-ordering example. -/
def exC : Task := new_task 2 "track_C" "track" "C" "NC" 3 []

/-- One zombie `in_progress` task, leased by worker w, started at time 0. -/
def mkZombie (i : Nat) : Task :=
  { new_task 0 (String.append "z" (toString i)) "track" (toString i) "N" 5 [] with
    status := STATUS_IN_PROGRESS
    worker_id := some "w"
    started_at := some 0 }

/-- 101 zombie tasks, all started two hours before `now = 7200`. -/
def zombieStore : List Task := (List.range 101).map mkZombie

/-! Claim theorems. -/

/-- Claim C1 (refuted on `get_next_pending_task`): with exactly one
`pending` task in the store, two racing repository claims interleaved as
find(w1), find(w2), update(w1), update(w2) BOTH return the task, each
stamped with the caller's own `worker_id` — the find-then-update claim is
not an indivisible read-modify-write and its update phase matches on
`task_id` alone, so the at-most-one-claim guarantee fails on this path.
(The worker's `_get_next_task` is a single `find_one_and_update` and is
modelled as one atomic step, `get_next_task`.) -/
theorem race_two_claims_double_claim :
    ((race_two_claims [exPending] 1 2 "w1" "w2").1.map (fun t => (t.task_id, t.worker_id))
        = some ("track_T1", some "w1")) ∧
    ((race_two_claims [exPending] 1 2 "w1" "w2").2.1.map (fun t => (t.task_id, t.worker_id))
        = some ("track_T1", some "w2")) := by decide

/-- Sequential runs of the worker's atomic claim on a single-pending store:
the first call returns the task, the second returns none. -/
theorem get_next_task_second_claim_none :
    ((get_next_task [exPending] 1 "w1").1.map (fun t => t.task_id) = some "track_T1") ∧
    (get_next_task (get_next_task [exPending] 1 "w1").2 2 "w2").1 = none := by decide

/-- Claim C2 counterexample: the store reached by create, assign,
complete(success) is reachable, yet violates the biconditional
"worker_id set iff in_progress": its task has status `success` with
`worker_id` still set (`complete_task` never clears the lease). -/
theorem worker_id_iff_in_progress_false :
    Reachable completedStore ∧ ¬ WorkerIffInv completedStore := by
  constructor
  · exact Reachable.complete assignedStore 2 "track_T1" true none
      (Reachable.assign _ 1 "track_T1" "w1"
        (Reachable.create [] 0 "track" "T1" "N" 5 [] false Reachable.init))
  · unfold WorkerIffInv
    decide

/-- Witness for C2 (amended) at the concrete reachable store with one
`in_progress` task. -/
theorem worker_id_of_in_progress_witness :
    Reachable assignedStore ∧ WorkerInv assignedStore :=
  have h : Reachable assignedStore :=
    Reachable.assign _ 1 "track_T1" "w1"
      (Reachable.create [] 0 "track" "T1" "N" 5 [] false Reachable.init)
  ⟨h, worker_id_of_in_progress h⟩

/-- Claim C3: starting from a store holding no task with the derived id,
calling `create_task` twice without force returns the derived id both
times, the second call leaves the store of the first unchanged, and exactly
one row for that `(task_type, entity_id)` remains. -/
theorem create_task_idempotent (s : List Task) (n1 n2 : Int)
    (task_type entity_id entity_name : String) (priority : Int)
    (options : List (String × String))
    (h : ∀ t ∈ s, t.task_id ≠ derived_task_id task_type entity_id) :
    (create_task s n1 task_type entity_id entity_name priority options false).1
        = derived_task_id task_type entity_id ∧
    (create_task (create_task s n1 task_type entity_id entity_name priority options false).2
        n2 task_type entity_id entity_name priority options false).1
        = derived_task_id task_type entity_id ∧
    (create_task (create_task s n1 task_type entity_id entity_name priority options false).2
        n2 task_type entity_id entity_name priority options false).2
        = (create_task s n1 task_type entity_id entity_name priority options false).2 ∧
    ((create_task (create_task s n1 task_type entity_id entity_name priority options false).2
        n2 task_type entity_id entity_name priority options false).2.filter
        (fun t => t.task_id == derived_task_id task_type entity_id)).length = 1 := by
  have hq : ∀ t ∈ s, ¬((fun u => u.task_id == derived_task_id task_type entity_id) t = true) := by
    intro t ht
    simpa using h t ht
  have hfind1 : s.find? (fun u => u.task_id == derived_task_id task_type entity_id) = none :=
    List.find?_eq_none.2 hq
  have h1 : create_task s n1 task_type entity_id entity_name priority options false
      = (derived_task_id task_type entity_id,
         s ++ [new_task n1 (derived_task_id task_type entity_id) task_type entity_id
           entity_name priority options]) := by
    simp only [create_task, find_one, hfind1]
  have hfind2 : (s ++ [new_task n1 (derived_task_id task_type entity_id) task_type entity_id
        entity_name priority options]).find?
        (fun u => u.task_id == derived_task_id task_type entity_id)
      = some (new_task n1 (derived_task_id task_type entity_id) task_type entity_id
        entity_name priority options) := by
    rw [find?_append_of_none hfind1]
    exact List.find?_cons_of_pos _ (by simp [new_task])
  have h2 : create_task (s ++ [new_task n1 (derived_task_id task_type entity_id) task_type
        entity_id entity_name priority options]) n2 task_type entity_id entity_name priority
        options false
      = (derived_task_id task_type entity_id,
         s ++ [new_task n1 (derived_task_id task_type entity_id) task_type entity_id
           entity_name priority options]) := by
    simp only [create_task, find_one, hfind2]
    simp [new_task, STATUS_PENDING, STATUS_SUCCESS, STATUS_IN_PROGRESS, STATUS_FAILED]
  have hfil : ((s ++ [new_task n1 (derived_task_id task_type entity_id) task_type entity_id
        entity_name priority options]).filter
        (fun t => t.task_id == derived_task_id task_type entity_id)).length = 1 := by
    rw [List.filter_append]
    have hnil : s.filter (fun t => t.task_id == derived_task_id task_type entity_id) = [] :=
      List.filter_eq_nil_iff.2 hq
    rw [hnil]
    simp [new_task]
  rw [h1]
  exact ⟨rfl, by rw [h2], by rw [h2], by rw [h2]; exact hfil⟩

/-- Witness for C3 from the empty store. -/
theorem create_task_idempotent_witness :
    (create_task [] 0 "track" "T1" "N" 5 [] false).1 = derived_task_id "track" "T1" ∧
    (create_task (create_task [] 0 "track" "T1" "N" 5 [] false).2
        1 "track" "T1" "N" 5 [] false).1 = derived_task_id "track" "T1" ∧
    (create_task (create_task [] 0 "track" "T1" "N" 5 [] false).2
        1 "track" "T1" "N" 5 [] false).2 = (create_task [] 0 "track" "T1" "N" 5 [] false).2 ∧
    ((create_task (create_task [] 0 "track" "T1" "N" 5 [] false).2
        1 "track" "T1" "N" 5 [] false).2.filter
        (fun t => t.task_id == derived_task_id "track" "T1")).length = 1 :=
  create_task_idempotent [] 0 1 "track" "T1" "N" 5 [] (by simp)

/-- Claim C4: `retry_task` on a task with `retries >= max_retries` returns
none and leaves the store entirely unchanged; on a task with
`retries < max_retries` it returns the task reset to `pending` with
`retries` incremented by one and `worker_id`/`started_at` cleared. -/
theorem retry_task_budget (s : List Task) (now : Int) (task_id : String) (t : Task)
    (hfind : s.find? (fun u => u.task_id == task_id) = some t) :
    (t.retries ≥ t.max_retries → retry_task s now task_id = (none, s)) ∧
    (t.retries < t.max_retries →
      (retry_task s now task_id).1 = some (retry_stamp now (t.retries + 1) t)) := by
  constructor
  · intro hge
    simp only [retry_task, find_one, hfind]
    rw [if_pos hge]
  · intro hlt
    simp only [retry_task, find_one, hfind]
    rw [if_neg (not_le.2 hlt)]
    exact update_one_fst_of_find? hfind

/-- Witness for C4: an exhausted task is refused unchanged; a task under
budget is reset with `retries` incremented and the lease cleared. -/
theorem retry_task_budget_witness :
    retry_task [exFailedExhausted] 9 "track_T1" = (none, [exFailedExhausted]) ∧
    (retry_task [exFailedOnce] 9 "track_T1").1 = some (retry_stamp 9 2 exFailedOnce) :=
  ⟨(retry_task_budget [exFailedExhausted] 9 "track_T1" exFailedExhausted (by decide)).1
      (by decide),
   (retry_task_budget [exFailedOnce] 9 "track_T1" exFailedOnce (by decide)).2 (by decide)⟩

/-- Claim C5 (refuted on `assign_task`): on a `pending` task the assignment
performs the transition — status `in_progress`, `worker_id` and
`started_at` stamped — but the call returns false: the matched-count check
reads the key `matched_count` from the returned task document, which never
carries it, and so always sees the default 0. -/
theorem assign_task_returns_false :
    (assign_task [exPending] 7 "track_T1" "w1").1 = false ∧
    (assign_task [exPending] 7 "track_T1" "w1").2.map
        (fun t => (t.status, t.worker_id, t.started_at))
      = [(STATUS_IN_PROGRESS, some "w1", some 7)] := by decide

/-- Claim C6: the externally exposed retry (`retry_failed_task`, modelled
from the spec) succeeds only on a `failed` task whose retry budget is not
exhausted; a task in any other status, or over budget, is refused with the
store unchanged. -/
theorem retry_failed_task_only_failed (s : List Task) (now : Int) (task_id : String) (t : Task)
    (hfind : s.find? (fun u => u.task_id == task_id) = some t) :
    (t.status ≠ STATUS_FAILED → retry_failed_task s now task_id = (false, s)) ∧
    (t.retries ≥ t.max_retries → retry_failed_task s now task_id = (false, s)) ∧
    (t.status = STATUS_FAILED → t.retries < t.max_retries →
      (retry_failed_task s now task_id).1 = true) := by
  refine ⟨?_, ?_, ?_⟩
  · intro hne
    simp only [retry_failed_task, find_one, hfind]
    rw [if_neg]
    simp only [Bool.and_eq_true, beq_iff_eq]
    exact fun hc => hne hc.1
  · intro hge
    simp only [retry_failed_task, find_one, hfind]
    rw [if_neg]
    simp only [Bool.and_eq_true, decide_eq_true_eq]
    intro hc
    omega
  · intro heq hlt
    simp only [retry_failed_task, find_one, hfind]
    rw [if_pos (by simp [heq, hlt])]
    show (retry_task s now task_id).1.isSome = true
    simp only [retry_task, find_one, hfind]
    rw [if_neg (not_le.2 hlt)]
    rw [update_one_fst_of_find? hfind]
    rfl

/-- Witness for C6: a `failed` task under budget is retried successfully. -/
theorem retry_failed_task_only_failed_witness :
    (retry_failed_task [exFailedOnce] 9 "track_T1").1 = true :=
  (retry_failed_task_only_failed [exFailedOnce] 9 "track_T1" exFailedOnce (by decide)).2.2
    (by decide) (by decide)

/-- Claim C7 (amended): a non-forced create whose derived id matches an
existing `failed` task resets that task to `pending` with `retries = 0` and
returns the existing id; when the existing task is `pending`, the create
returns the existing id and leaves the store — and in particular the task's
`retries` counter — unchanged. -/
theorem create_task_existing (s : List Task) (now : Int)
    (task_type entity_id entity_name : String) (priority : Int)
    (options : List (String × String)) (t : Task)
    (hfind : s.find? (fun u => u.task_id == derived_task_id task_type entity_id) = some t) :
    (t.status = STATUS_FAILED →
      (create_task s now task_type entity_id entity_name priority options false).1
          = derived_task_id task_type entity_id ∧
      (create_task s now task_type entity_id entity_name priority options false).2.find?
          (fun u => u.task_id == derived_task_id task_type entity_id)
          = some (create_reset_stamp now t)) ∧
    (t.status = STATUS_PENDING →
      create_task s now task_type entity_id entity_name priority options false
          = (derived_task_id task_type entity_id, s)) := by
  constructor
  · intro hf
    have hq : ((create_reset_stamp now t).task_id
        == derived_task_id task_type entity_id) = true := by
      have hp := List.find?_some hfind
      simpa [create_reset_stamp] using hp
    simp only [create_task, find_one, hfind, hf]
    simp only [STATUS_FAILED, STATUS_SUCCESS, STATUS_IN_PROGRESS, STATUS_PENDING]
    refine ⟨by simp, ?_⟩
    simp only [show (("failed" == "success" || "failed" == "in_progress") = true) = False
        by simp, if_false]
    rw [if_pos (by simp), if_pos (by simp)]
    exact find?_update_one hfind hq
  · intro hp
    simp only [create_task, find_one, hfind, hp]
    simp [STATUS_FAILED, STATUS_SUCCESS, STATUS_IN_PROGRESS, STATUS_PENDING]

/-- Claim C7 counterexample: a non-forced create over an existing `pending`
task with `retries = 2` returns the id but leaves `retries` at 2 — the
reset to `retries = 0` happens only for `failed` tasks. -/
theorem create_task_pending_not_reset :
    create_task [exPendingRetried] 5 "track" "T1" "N" 5 [] false
        = ("track_T1", [exPendingRetried]) ∧
    exPendingRetried.status = STATUS_PENDING ∧
    exPendingRetried.retries = 2 := by decide

/-- Witness for C7 (amended): the `failed` branch at a concrete store. -/
theorem create_task_existing_witness :
    (create_task [exFailedRetried] 5 "track" "T1" "N" 5 [] false).2.find?
        (fun u => u.task_id == derived_task_id "track" "T1")
        = some (create_reset_stamp 5 exFailedRetried) :=
  ((create_task_existing [exFailedRetried] 5 "track" "T1" "N" 5 [] exFailedRetried
      (by decide)).1 (by decide)).2

/-- Claim C8 (refuted at >100 zombies): the zombie pass scans the
`in_progress` tasks through `BaseRepository.find` whose default limit is
100, so with 101 timed-out `in_progress` tasks one pass marks exactly the
first 100 `failed` with the timeout error and leaves the 101st untouched
`in_progress`; a task within the timeout window is left unchanged. -/
theorem clean_zombie_tasks_caps_at_100 :
    ((clean_zombie_tasks zombieStore 7200).filter
        (fun u => u.status == STATUS_IN_PROGRESS)).map (fun u => u.task_id)
      = [String.append "z" (toString 100)] ∧
    ((clean_zombie_tasks zombieStore 7200).filter
        (fun u => u.status == STATUS_FAILED)).map (fun u => u.error)
      = List.replicate 100 (some TIMEOUT_ERROR) ∧
    clean_zombie_tasks [{ mkZombie 0 with started_at := some 7000 }] 7200
      = [{ mkZombie 0 with started_at := some 7000 }] := by decide

/-- Claim C9: two successive successful claims (worker claim path) return
tasks in the order priority ascending, ties broken by earliest
`created_at`. -/
theorem claim_next_order (s : List Task) (n1 n2 : Int) (w1 w2 : String) (r1 r2 : Task)
    (h1 : (get_next_task s n1 w1).1 = some r1)
    (h2 : (get_next_task (get_next_task s n1 w1).2 n2 w2).1 = some r2) :
    r1.priority < r2.priority ∨
      (r1.priority = r2.priority ∧ r1.created_at ≤ r2.created_at) := by
  rcases hsel : selectPending s with _ | t
  · rw [get_next_task, hsel] at h1
    simp at h1
  · simp only [get_next_task, hsel] at h1 h2
    rcases hsel2 : selectPending (replaceFirst t (claim_stamp n1 w1 t) s) with _ | t2
    · rw [hsel2] at h2
      simp at h2
    · rw [hsel2] at h2
      simp only [Option.some.injEq] at h1 h2
      have hm2 := selectPending_mem hsel2
      rcases mem_replaceFirst hm2.1 with he | hins
      · exact absurd (he ▸ hm2.2)
          (by simp [claim_stamp, STATUS_IN_PROGRESS, STATUS_PENDING])
      · have hle : lexLe t t2 := selectPending_le hsel t2 hins hm2.2
        rw [← h1, ← h2]
        simpa [claim_stamp, lexLe] using hle

/-- Witness for C9: pending priorities [5, 1, 3] are claimed 1 first, then
3. -/
theorem claim_next_order_witness :
    (claim_stamp 10 "w1" exB).priority < (claim_stamp 11 "w2" exC).priority ∨
    ((claim_stamp 10 "w1" exB).priority = (claim_stamp 11 "w2" exC).priority ∧
      (claim_stamp 10 "w1" exB).created_at ≤ (claim_stamp 11 "w2" exC).created_at) :=
  claim_next_order [exA, exB, exC] 10 11 "w1" "w2" (claim_stamp 10 "w1" exB)
    (claim_stamp 11 "w2" exC) (by decide) (by decide)

/-- Claim C10: for a task id not present in the store, `complete_task`,
`update_task_progress` and `retry_task` each return none and leave the
store unchanged — no row is created or modified. -/
theorem missing_task_id_noop (s : List Task) (now : Int) (task_id : String)
    (completed failed total : Int) (success : Bool) (error : Option String)
    (h : s.find? (fun u => u.task_id == task_id) = none) :
    complete_task s now task_id success error = (none, s) ∧
    update_task_progress s now task_id completed failed total = (none, s) ∧
    retry_task s now task_id = (none, s) := by
  refine ⟨update_one_eq_none h, update_one_eq_none h, ?_⟩
  simp only [retry_task, find_one, h]

/-- Witness for C10 at a store that does not contain the id album_X. -/
theorem missing_task_id_noop_witness :
    complete_task [exPending] 5 "album_X" true none = (none, [exPending]) ∧
    update_task_progress [exPending] 5 "album_X" 1 2 3 = (none, [exPending]) ∧
    retry_task [exPending] 5 "album_X" = (none, [exPending]) :=
  missing_task_id_noop [exPending] 5 "album_X" 1 2 3 true none (by decide)

end Spyt
